import Mathlib

/-!
Verification of the certification-records worker (`worker.js`).

The worker proxies a tabular dataset and exposes four JSON endpoints:
a raw list, an aggregate summary (`getCertificationsSummary`), a monthly
trend rollup (`getMonthlyTrends`) and a DataTables-style paged table feed
(`getTableData`), dispatched by `handleApiRequest`.

Embedding conventions:
* A record fetched from the upstream service is parsed JSON, so each field
  value is a string or `null`; absent fields are simply missing from the
  object.  We model a record as an association list from field name to
  `JsVal` (first binding wins, as JS objects have unique keys).
* JS objects used as count maps (`summary.byCredential`, `monthlyData`)
  preserve insertion order for non-integer-like keys; we model them as
  association lists where a new key is appended at the end.
* Strings are compared with Lean's lexicographic order, matching JS's
  UTF-16 code-unit comparison on the (ASCII) data involved.
* `toLowerCase` is modelled by ASCII case folding (`lowerStr`), which
  agrees with JS on the field values and search patterns involved.
* Async functions that can throw are modelled in `Except JsError`.
-/

/-- A JSON field value as it appears in a parsed upstream record:
a string or `null` (`JSON.parse` can not produce `undefined`). -/
inductive JsVal where
  | str (s : String)
  | null
deriving DecidableEq, Repr

/-- One certification record: an association list from field name to value,
modelling a parsed JSON object (keys unique, insertion order kept). -/
def Record := List (String × JsVal)

instance : DecidableEq Record := inferInstanceAs (DecidableEq (List (String × JsVal)))

/-- Property access `cert[k]`: `some v` when the field is present,
`none` when it is absent (JS `undefined`). -/
def lookupField : Record → String → Option JsVal
  | [], _ => none
  | (k', v) :: rest, k => if k' = k then some v else lookupField rest k

/-- JS `String(value)` on a parsed-JSON field value. -/
def jsToString : JsVal → String
  | .str s => s
  | .null => "null"

/-- JS truthiness-based defaulting `cert[k] || dflt`: the value when it is a
non-empty string, else `dflt` (absent, `null` and `""` are all falsy). -/
def fieldOr (cert : Record) (k : String) (dflt : String) : String :=
  match lookupField cert k with
  | some (.str s) => if s = "" then dflt else s
  | _ => dflt

/-- JS `obj[k] = (obj[k] || 0) + 1` on a count object: increment the
binding for `k`, appending `(k, 1)` when the key is new. -/
def bump : List (String × Nat) → String → List (String × Nat)
  | [], k => [(k, 1)]
  | (k', n) :: rest, k =>
      if k' = k then (k', n + 1) :: rest else (k', n) :: bump rest k

/-- Read a count object: `obj[k] || 0`. -/
def getCount : List (String × Nat) → String → Nat
  | [], _ => 0
  | (k', n) :: rest, k => if k' = k then n else getCount rest k

/-- Sum of all counts in a count object. -/
def sumCounts (m : List (String × Nat)) : Nat :=
  m.foldr (fun p acc => p.2 + acc) 0

/-- The `summary` object built by `getCertificationsSummary`. -/
structure Summary where
  total : Nat
  byCredential : List (String × Nat)
  byCounty : List (String × Nat)
  byCity : List (String × Nat)
deriving DecidableEq, Repr

/-- The body of the `forEach` loop in `getCertificationsSummary`
(worker.js lines 125-133): group each record under its credential,
county and city, defaulting each to `"Unknown"`. -/
def summarizeStep (s : Summary) (cert : Record) : Summary :=
  { total := s.total
    byCredential := bump s.byCredential (fieldOr cert "CREDENTIAL" "Unknown")
    byCounty := bump s.byCounty (fieldOr cert "COUNTY" "Unknown")
    byCity := bump s.byCity (fieldOr cert "CITY" "Unknown") }

/-- The pure core of `getCertificationsSummary` (worker.js lines 115-135):
`total` is set to the snapshot length, then every record is folded
through the grouping step. -/
def summarize (records : List Record) : Summary :=
  records.foldl summarizeStep
    { total := records.length, byCredential := [], byCounty := [], byCity := [] }

-- Basic count-object lemmas -------------------------------------------------

theorem sumCounts_bump (m : List (String × Nat)) (k : String) :
    sumCounts (bump m k) = sumCounts m + 1 := by
  induction m with
  | nil => simp [bump, sumCounts]
  | cons p rest ih =>
      obtain ⟨k', n⟩ := p
      by_cases h : k' = k <;> simp [bump, h, sumCounts] at ih ⊢ <;> omega

theorem getCount_bump_self (m : List (String × Nat)) (k : String) :
    getCount (bump m k) k = getCount m k + 1 := by
  induction m with
  | nil => simp [bump, getCount]
  | cons p rest ih =>
      obtain ⟨k', n⟩ := p
      by_cases h : k' = k <;> simp [bump, getCount, h, ih]

theorem summarize_total_foldl (l : List Record) (s : Summary) :
    (l.foldl summarizeStep s).total = s.total := by
  induction l generalizing s with
  | nil => rfl
  | cons cert rest ih => simpa [summarizeStep] using ih (summarizeStep s cert)

theorem summarize_sum_byCredential (l : List Record) (s : Summary) :
    sumCounts (l.foldl summarizeStep s).byCredential
      = sumCounts s.byCredential + l.length := by
  induction l generalizing s with
  | nil => simp
  | cons cert rest ih =>
      have := ih (summarizeStep s cert)
      simp only [List.foldl_cons] at *
      rw [this]
      simp [summarizeStep, sumCounts_bump]
      omega

theorem summarize_sum_byCounty (l : List Record) (s : Summary) :
    sumCounts (l.foldl summarizeStep s).byCounty
      = sumCounts s.byCounty + l.length := by
  induction l generalizing s with
  | nil => simp
  | cons cert rest ih =>
      have := ih (summarizeStep s cert)
      simp only [List.foldl_cons] at *
      rw [this]
      simp [summarizeStep, sumCounts_bump]
      omega

theorem summarize_sum_byCity (l : List Record) (s : Summary) :
    sumCounts (l.foldl summarizeStep s).byCity
      = sumCounts s.byCity + l.length := by
  induction l generalizing s with
  | nil => simp
  | cons cert rest ih =>
      have := ih (summarizeStep s cert)
      simp only [List.foldl_cons] at *
      rw [this]
      simp [summarizeStep, sumCounts_bump]
      omega

/-- C1: `summarize(records).total` equals the record count, and in each of
the three groupings the counts sum to the record count (every record
increments exactly one key of each grouping). -/
theorem summary_totals_add_up (records : List Record) :
    (summarize records).total = records.length
    ∧ sumCounts (summarize records).byCredential = records.length
    ∧ sumCounts (summarize records).byCounty = records.length
    ∧ sumCounts (summarize records).byCity = records.length := by
  refine ⟨?_, ?_, ?_, ?_⟩
  · exact summarize_total_foldl records _
  · simpa [summarize, sumCounts] using summarize_sum_byCredential records
      { total := records.length, byCredential := [], byCounty := [], byCity := [] }
  · simpa [summarize, sumCounts] using summarize_sum_byCounty records
      { total := records.length, byCredential := [], byCounty := [], byCity := [] }
  · simpa [summarize, sumCounts] using summarize_sum_byCity records
      { total := records.length, byCredential := [], byCounty := [], byCity := [] }

/-- C8: a record whose `CREDENTIAL` (resp. `COUNTY`, `CITY`) field is absent
or `null` is counted under the literal key `"Unknown"` of the corresponding
grouping by the summary step. -/
theorem missing_fields_counted_as_unknown (s : Summary) (cert : Record) :
    ((lookupField cert "CREDENTIAL" = none ∨ lookupField cert "CREDENTIAL" = some .null) →
      getCount (summarizeStep s cert).byCredential "Unknown"
        = getCount s.byCredential "Unknown" + 1)
    ∧ ((lookupField cert "COUNTY" = none ∨ lookupField cert "COUNTY" = some .null) →
      getCount (summarizeStep s cert).byCounty "Unknown"
        = getCount s.byCounty "Unknown" + 1)
    ∧ ((lookupField cert "CITY" = none ∨ lookupField cert "CITY" = some .null) →
      getCount (summarizeStep s cert).byCity "Unknown"
        = getCount s.byCity "Unknown" + 1) := by
  refine ⟨?_, ?_, ?_⟩ <;> rintro (h | h) <;>
    simp [summarizeStep, fieldOr, h, getCount_bump_self]

/-- Witness for C8 at a concrete record with a `null` credential, an absent
county field and a `null` city. -/
theorem missing_fields_counted_as_unknown_witness :
    getCount (summarizeStep ⟨0, [], [], []⟩
        [("NAME", .str "Alice"), ("CREDENTIAL", .null), ("CITY", .null)]).byCredential "Unknown"
      = getCount ([] : List (String × Nat)) "Unknown" + 1 := by
  exact (missing_fields_counted_as_unknown ⟨0, [], [], []⟩
    [("NAME", .str "Alice"), ("CREDENTIAL", .null), ("CITY", .null)]).1 (Or.inr (by decide))

-- Strings: ASCII case folding and substring search ---------------------------

/-- ASCII lowering of a single character, as `toLowerCase` acts on the
ASCII range. -/
def lowerChar (c : Char) : Char :=
  if 65 ≤ c.toNat ∧ c.toNat ≤ 90 then Char.ofNat (c.toNat + 32) else c

/-- JS `s.toLowerCase()` on ASCII data. -/
def lowerStr (s : String) : String :=
  ⟨s.data.map lowerChar⟩

/-- Whether `pat` is an initial segment of `s` (character lists). -/
def beginsWith : List Char → List Char → Bool
  | _, [] => true
  | [], _ :: _ => false
  | a :: as, b :: bs => a == b && beginsWith as bs

/-- Whether `pat` occurs contiguously inside `s` (character lists). -/
def hasSub : List Char → List Char → Bool
  | [], pat => pat.isEmpty
  | c :: rest, pat => beginsWith (c :: rest) pat || hasSub rest pat

/-- JS `s.includes(pat)`: contiguous substring containment. -/
def strIncludes (s pat : String) : Bool :=
  hasSub s.data pat.data

/-- JS `str.substring(0, 7)`, used to cut a `YYYY-MM` month key out of an
ISO date string. -/
def strTake7 (s : String) : String :=
  ⟨s.data.take 7⟩

/-- worker.js `getMonthEntry`: `null` for a falsy date field (absent, `null`
or `""`), else the first seven characters of the date string. -/
def getMonthEntry : Option JsVal → Option String
  | some (.str s) => if s = "" then none else some (strTake7 s)
  | _ => none

/-- JS `status && status.toLowerCase().includes(pat)`: the status field is a
truthy string whose lowercase form contains `pat`. -/
def statusHas (status : Option JsVal) (pat : String) : Bool :=
  match status with
  | some (.str s) => (!(s == "")) && strIncludes (lowerStr s) pat
  | _ => false

-- Monthly trends --------------------------------------------------------------

/-- One `monthlyData` bucket: per-credential new-certification counts plus
the three scalar counters. -/
structure Bucket where
  newlyCertified : List (String × Nat)
  lapsed : Nat
  expired : Nat
  ethicsViolations : Nat
deriving DecidableEq, Repr

/-- The bucket created by `monthlyData[m] = { newlyCertified: {}, lapsed: 0,
expired: 0, ethicsViolations: 0 }`. -/
def emptyBucket : Bucket :=
  { newlyCertified := [], lapsed := 0, expired := 0, ethicsViolations := 0 }

/-- The `monthlyData` object: month key to bucket, insertion-ordered. -/
def MonthlyData := List (String × Bucket)

instance : DecidableEq MonthlyData :=
  inferInstanceAs (DecidableEq (List (String × Bucket)))

/-- The JS pattern `if (!monthlyData[k]) monthlyData[k] = empty; f(monthlyData[k])`:
apply `f` to the bucket at `k`, materialising an empty bucket first when the
key is new (appended at the end, as JS objects keep insertion order). -/
def updateBucket : MonthlyData → String → (Bucket → Bucket) → MonthlyData
  | [], k, f => [(k, f emptyBucket)]
  | (k', b) :: rest, k, f =>
      if k' = k then (k', f b) :: rest else (k', b) :: updateBucket rest k f

/-- Read `monthlyData[k]`, with the empty bucket for an absent key. -/
def getBucket : MonthlyData → String → Bucket
  | [], _ => emptyBucket
  | (k', b) :: rest, k => if k' = k then b else getBucket rest k

/-- The body of the `forEach` loop of `getMonthlyTrends` (worker.js lines
148-190).  The evaluation instant is passed in as the ISO string `now`
(the source reads `new Date()`; the calendar year-and-month comparison of
the expiration date against today, and `new Date().toISOString()`'s month,
are both the `YYYY-MM` prefix under the ISO text model). -/
def processTrendRecord (now : String) (md : MonthlyData) (cert : Record) : MonthlyData :=
  let status := lookupField cert "STATUS"
  let credential := fieldOr cert "CREDENTIAL" "Unknown"
  let issueMonth := getMonthEntry (lookupField cert "ISSUE DATE")
  let md1 :=
    match issueMonth with
    | some m =>
        updateBucket md m fun b => { b with newlyCertified := bump b.newlyCertified credential }
    | none => md
  let md2 :=
    match getMonthEntry (lookupField cert "EXP DATE") with
    | some m =>
        let mdE := updateBucket md1 m id
        let mdF :=
          if m = strTake7 now ∧ status ≠ some (.str "Active") then
            updateBucket mdE m fun b => { b with expired := b.expired + 1 }
          else mdE
        if statusHas status "lapsed" then
          updateBucket mdF m fun b => { b with lapsed := b.lapsed + 1 }
        else mdF
    | none => md1
  if statusHas status "ethics" then
    let violationMonth := issueMonth.getD (strTake7 now)
    updateBucket md2 violationMonth fun b =>
      { b with ethicsViolations := b.ethicsViolations + 1 }
  else md2

/-- Lexicographic string order on the underlying character lists; agrees
with `String ≤` (`String.le_iff_toList_le`) and with the UTF-16 code-unit
comparison JS's default `sort()` applies to these ASCII keys. -/
def strLe (a b : String) : Prop :=
  a.data ≤ b.data

instance : DecidableRel strLe := fun a b =>
  inferInstanceAs (Decidable (a.data ≤ b.data))

/-- The pure core of `getMonthlyTrends` (worker.js lines 138-199): fold every
record into `monthlyData`, then emit the buckets with their keys sorted
ascending (`Object.keys(monthlyData).sort()`). -/
def getMonthlyTrends (now : String) (records : List Record) : MonthlyData :=
  let md := records.foldl (processTrendRecord now) []
  let sortedMonths := List.insertionSort strLe (md.map Prod.fst)
  sortedMonths.map fun m => (m, getBucket md m)

-- Bucket-map lemmas -----------------------------------------------------------

theorem getBucket_updateBucket (md : MonthlyData) (k k' : String) (f : Bucket → Bucket) :
    getBucket (updateBucket md k f) k' =
      if k' = k then f (getBucket md k) else getBucket md k' := by
  induction md with
  | nil =>
      by_cases h : k' = k
      · subst h; simp [updateBucket, getBucket]
      · simp [updateBucket, getBucket, h, Ne.symm h]
  | cons p rest ih =>
      obtain ⟨k0, b⟩ := p
      by_cases h0 : k0 = k <;> by_cases h1 : k' = k <;> by_cases h2 : k0 = k' <;>
        simp_all [updateBucket, getBucket]

theorem getBucket_updateBucket_self (md : MonthlyData) (k : String) (f : Bucket → Bucket) :
    getBucket (updateBucket md k f) k = f (getBucket md k) := by
  simp [getBucket_updateBucket]

theorem lapsed_getBucket_updateBucket (md : MonthlyData) (k k' : String)
    (f : Bucket → Bucket) (h : ∀ b, (f b).lapsed = b.lapsed) :
    (getBucket (updateBucket md k f) k').lapsed = (getBucket md k').lapsed := by
  rw [getBucket_updateBucket]
  by_cases h1 : k' = k
  · subst h1; simp [h]
  · simp [h1]

theorem expired_getBucket_updateBucket (md : MonthlyData) (k k' : String)
    (f : Bucket → Bucket) (h : ∀ b, (f b).expired = b.expired) :
    (getBucket (updateBucket md k f) k').expired = (getBucket md k').expired := by
  rw [getBucket_updateBucket]
  by_cases h1 : k' = k
  · subst h1; simp [h]
  · simp [h1]

theorem ethics_getBucket_updateBucket (md : MonthlyData) (k k' : String)
    (f : Bucket → Bucket) (h : ∀ b, (f b).ethicsViolations = b.ethicsViolations) :
    (getBucket (updateBucket md k f) k').ethicsViolations
      = (getBucket md k').ethicsViolations := by
  rw [getBucket_updateBucket]
  by_cases h1 : k' = k
  · subst h1; simp [h]
  · simp [h1]

theorem trend_expired_step (md : MonthlyData) (cert : Record)
    (hexp : lookupField cert "EXP DATE" = some (.str "2024-06-01"))
    (hstat : lookupField cert "STATUS" = some (.str "Expired")) :
    (getBucket (processTrendRecord "2024-06-15" md cert) "2024-06").expired
      = (getBucket md "2024-06").expired + 1 := by
  have e1 : getMonthEntry (some (JsVal.str "2024-06-01")) = some "2024-06" := by decide
  have e2 : strTake7 "2024-06-15" = "2024-06" := by decide
  have e3 : statusHas (some (JsVal.str "Expired")) "lapsed" = false := by decide
  have e4 : statusHas (some (JsVal.str "Expired")) "ethics" = false := by decide
  simp only [processTrendRecord, hexp, hstat, e1, e2, e3, e4, Bool.false_eq_true, if_false]
  rw [if_pos (by decide : True ∧ some (JsVal.str "Expired") ≠ some (JsVal.str "Active"))]
  cases hIm : getMonthEntry (lookupField cert "ISSUE DATE") with
  | none =>
      simp only [hIm]
      rw [getBucket_updateBucket_self, getBucket_updateBucket_self]
      simp
  | some m =>
      simp only [hIm]
      rw [getBucket_updateBucket_self, getBucket_updateBucket_self]
      simp only [id_eq]
      rw [expired_getBucket_updateBucket md m "2024-06"
        (fun b => { b with newlyCertified := bump b.newlyCertified (fieldOr cert "CREDENTIAL" "Unknown") })
        (fun b => rfl)]

theorem getBucket_ensure (md : MonthlyData) (k k' : String) :
    getBucket (updateBucket md k id) k' = getBucket md k' := by
  by_cases h : k' = k
  · subst h; simp [getBucket_updateBucket_self]
  · rw [getBucket_updateBucket]; simp [h]

theorem lapsed_bump_self (md : MonthlyData) (k : String) :
    (getBucket (updateBucket md k fun b => { b with lapsed := b.lapsed + 1 }) k).lapsed
      = (getBucket md k).lapsed + 1 := by
  rw [getBucket_updateBucket_self]

theorem ethics_bump_self (md : MonthlyData) (k : String) :
    (getBucket (updateBucket md k fun b =>
        { b with ethicsViolations := b.ethicsViolations + 1 }) k).ethicsViolations
      = (getBucket md k).ethicsViolations + 1 := by
  rw [getBucket_updateBucket_self]

theorem trend_lapsed_ethics_step (md : MonthlyData) (cert : Record) (e : String)
    (hstat : lookupField cert "STATUS" = some (.str "Lapsed-Ethics"))
    (hexp : lookupField cert "EXP DATE" = some (.str e)) (he : e ≠ "") :
    (getBucket (processTrendRecord "2024-06-15" md cert) (strTake7 e)).lapsed
        = (getBucket md (strTake7 e)).lapsed + 1
    ∧ (getBucket (processTrendRecord "2024-06-15" md cert)
          ((getMonthEntry (lookupField cert "ISSUE DATE")).getD
            (strTake7 "2024-06-15"))).ethicsViolations
        = (getBucket md
          ((getMonthEntry (lookupField cert "ISSUE DATE")).getD
            (strTake7 "2024-06-15"))).ethicsViolations + 1 := by
  have e1 : getMonthEntry (some (JsVal.str e)) = some (strTake7 e) := by
    simp [getMonthEntry, he]
  have e3 : statusHas (some (JsVal.str "Lapsed-Ethics")) "lapsed" = true := by decide
  have e4 : statusHas (some (JsVal.str "Lapsed-Ethics")) "ethics" = true := by decide
  simp only [processTrendRecord, hstat, hexp, e1, e3, e4, if_true]
  cases hIm : getMonthEntry (lookupField cert "ISSUE DATE") with
  | none =>
      simp only [hIm, Option.getD_none]
      by_cases hc : (strTake7 e = strTake7 "2024-06-15" ∧
          some (JsVal.str "Lapsed-Ethics") ≠ some (JsVal.str "Active"))
      · rw [if_pos hc]
        constructor <;>
          simp [lapsed_getBucket_updateBucket, ethics_getBucket_updateBucket,
            lapsed_bump_self, ethics_bump_self, getBucket_ensure]
      · rw [if_neg hc]
        constructor <;>
          simp [lapsed_getBucket_updateBucket, ethics_getBucket_updateBucket,
            lapsed_bump_self, ethics_bump_self, getBucket_ensure]
  | some m =>
      simp only [hIm, Option.getD_some]
      by_cases hc : (strTake7 e = strTake7 "2024-06-15" ∧
          some (JsVal.str "Lapsed-Ethics") ≠ some (JsVal.str "Active"))
      · rw [if_pos hc]
        constructor <;>
          simp [lapsed_getBucket_updateBucket, ethics_getBucket_updateBucket,
            lapsed_bump_self, ethics_bump_self, getBucket_ensure]
      · rw [if_neg hc]
        constructor <;>
          simp [lapsed_getBucket_updateBucket, ethics_getBucket_updateBucket,
            lapsed_bump_self, ethics_bump_self, getBucket_ensure]

/-- C4: with evaluation instant `now = "2024-06-15"`, a record carrying
`EXP DATE = "2024-06-01"` and `STATUS = "Expired"` increments the `expired`
counter of bucket `"2024-06"`, and a record with `STATUS = "Lapsed-Ethics"`
and a non-empty `EXP DATE` increments both the `lapsed` counter in its
expiration-month bucket and the `ethicsViolations` counter in its
issue-month bucket (or the current-month bucket when there is no issue
date), per record step of `getMonthlyTrends`. -/
theorem trend_buckets_incremented :
    (∀ (md : MonthlyData) (cert : Record),
      lookupField cert "EXP DATE" = some (.str "2024-06-01") →
      lookupField cert "STATUS" = some (.str "Expired") →
      (getBucket (processTrendRecord "2024-06-15" md cert) "2024-06").expired
        = (getBucket md "2024-06").expired + 1)
    ∧ (∀ (md : MonthlyData) (cert : Record) (e : String),
      lookupField cert "STATUS" = some (.str "Lapsed-Ethics") →
      lookupField cert "EXP DATE" = some (.str e) → e ≠ "" →
      (getBucket (processTrendRecord "2024-06-15" md cert) (strTake7 e)).lapsed
          = (getBucket md (strTake7 e)).lapsed + 1
      ∧ (getBucket (processTrendRecord "2024-06-15" md cert)
            ((getMonthEntry (lookupField cert "ISSUE DATE")).getD
              (strTake7 "2024-06-15"))).ethicsViolations
          = (getBucket md
            ((getMonthEntry (lookupField cert "ISSUE DATE")).getD
              (strTake7 "2024-06-15"))).ethicsViolations + 1) := by
  constructor
  · intro md cert hexp hstat
    exact trend_expired_step md cert hexp hstat
  · intro md cert e hstat hexp he
    exact trend_lapsed_ethics_step md cert e hstat hexp he

/-- Witness for C4 at two concrete records: one expired in June 2024, one
lapsed for an ethics violation with an issue and an expiration date. -/
theorem trend_buckets_incremented_witness :
    ((getBucket (processTrendRecord "2024-06-15" []
        [("EXP DATE", .str "2024-06-01"), ("STATUS", .str "Expired")]) "2024-06").expired
      = (getBucket [] "2024-06").expired + 1)
    ∧ ((getBucket (processTrendRecord "2024-06-15" []
        [("ISSUE DATE", .str "2023-02-10"), ("EXP DATE", .str "2025-02-10"),
         ("STATUS", .str "Lapsed-Ethics")]) (strTake7 "2025-02-10")).lapsed
      = (getBucket [] (strTake7 "2025-02-10")).lapsed + 1) := by
  constructor
  · exact trend_buckets_incremented.1 []
      [("EXP DATE", .str "2024-06-01"), ("STATUS", .str "Expired")] (by decide) (by decide)
  · exact (trend_buckets_incremented.2 []
      [("ISSUE DATE", .str "2023-02-10"), ("EXP DATE", .str "2025-02-10"),
       ("STATUS", .str "Lapsed-Ethics")] "2025-02-10" (by decide) (by decide) (by decide)).1

/-- C5: the month keys of the mapping returned by `getMonthlyTrends` are in
ascending lexicographic order. -/
theorem monthly_trends_keys_sorted (now : String) (records : List Record) :
    List.Sorted (· ≤ ·) ((getMonthlyTrends now records).map Prod.fst) := by
  have hiff : ∀ a b : String, strLe a b ↔ a ≤ b := fun a b =>
    Iff.symm String.le_iff_toList_le
  haveI : IsTotal String strLe :=
    ⟨fun a b => (le_total a b).imp (hiff a b).mpr (hiff b a).mpr⟩
  haveI : IsTrans String strLe :=
    ⟨fun a b c h1 h2 => (hiff a c).mpr (le_trans ((hiff a b).mp h1) ((hiff b c).mp h2))⟩
  have hs := List.sorted_insertionSort strLe
    ((records.foldl (processTrendRecord now) []).map Prod.fst)
  unfold getMonthlyTrends
  simp only [List.map_map]
  have : (Prod.fst ∘ fun m =>
      (m, getBucket (records.foldl (processTrendRecord now) []) m)) = id := rfl
  rw [this, List.map_id]
  exact hs.imp fun h => (hiff _ _).mp h

-- Table query engine ----------------------------------------------------------

/-- The fixed DataTables column-name list (worker.js line 231). -/
def columns : List String :=
  ["Id", "SCRAPE ORDER", "NAME", "CITY", "CREDENTIAL", "NUMBER",
   "ISSUE DATE", "EXP DATE", "STATUS", "COUNTY", "REGION"]

/-- The query parameters read from the request URL by `getTableData`
(worker.js lines 206-211), already parsed: `start` and `length` as
non-negative integers with their defaults applied, `searchValue` defaulting
to the empty string, and the order parameters absent when not supplied. -/
structure TableParams where
  draw : Option String
  start : Nat
  length : Nat
  searchValue : String
  orderColumnIndex : Option Nat
  orderDirection : Option String
deriving DecidableEq, Repr

/-- The DataTables response envelope (worker.js lines 252-257). -/
structure Envelope where
  draw : Option String
  recordsTotal : Nat
  recordsFiltered : Nat
  data : List Record
deriving DecidableEq

/-- The global-search predicate (worker.js lines 221-224): some field value,
rendered with `String(...)` and case-folded, contains the case-folded
search value. -/
def matchesSearch (searchValue : String) (cert : Record) : Bool :=
  (List.map Prod.snd cert).any fun v =>
    strIncludes (lowerStr (jsToString v)) (lowerStr searchValue)

/-- The filter step (worker.js lines 220-226): applied only for a non-empty
search value. -/
def filterStep (records : List Record) (searchValue : String) : List Record :=
  if searchValue = "" then records else records.filter (matchesSearch searchValue)

/-- The sort key of a record (worker.js lines 236-237):
`String(a[sortColumnName] || '').toLowerCase()` — the field's string value,
with missing, `null` and empty values all rendering as `""`, case-folded. -/
def sortKey (col : String) (r : Record) : String :=
  lowerStr (match lookupField r col with
    | some (.str s) => s
    | _ => "")

/-- The ascending comparator of the sort (worker.js lines 239-241), stated
on the key's character list so that it evaluates in the kernel; it agrees
with `String ≤` on the keys by `String.le_iff_toList_le`. -/
def sortAsc (col : String) (a b : Record) : Prop :=
  (sortKey col a).data ≤ (sortKey col b).data

instance (col : String) : DecidableRel (sortAsc col) := fun a b =>
  inferInstanceAs (Decidable ((sortKey col a).data ≤ (sortKey col b).data))

/-- The sort step (worker.js lines 229-244): applied only when a column
index and a truthy direction are supplied and the index maps into
`columns`; otherwise the list is left untouched.  `Array.prototype.sort`
is stable (ES2019), and a stable sort by a total preorder produces the
unique stably-sorted permutation, which `List.insertionSort` computes. -/
def sortStep (records : List Record) (idx? : Option Nat) (dir? : Option String) :
    List Record :=
  match idx?, dir? with
  | some idx, some dir =>
      if dir = "" then records
      else
        match columns[idx]? with
        | some col =>
            if dir = "asc" then List.insertionSort (sortAsc col) records
            else List.insertionSort (fun a b => sortAsc col b a) records
        | none => records
  | _, _ => records

/-- The query pipeline of `getTableData` (worker.js lines 217-257): global
substring filter, optional single-column stable sort, then the page slice
`filteredData.slice(start, start + length)` wrapped in the envelope with
the echoed draw token. -/
def queryTable (records : List Record) (p : TableParams) : Envelope :=
  let filteredData := filterStep records p.searchValue
  let sortedData := sortStep filteredData p.orderColumnIndex p.orderDirection
  { draw := p.draw
    recordsTotal := records.length
    recordsFiltered := filteredData.length
    data := (sortedData.drop p.start).take p.length }

theorem length_sortStep (records : List Record) (idx? : Option Nat)
    (dir? : Option String) : (sortStep records idx? dir?).length = records.length := by
  rcases idx? with _ | idx <;> rcases dir? with _ | dir <;> try rfl
  by_cases hd : dir = ""
  · simp [sortStep, hd]
  · cases hcol : columns[idx]? with
    | none => simp [sortStep, hd, hcol]
    | some col =>
        by_cases ha : dir = "asc" <;>
          simp [sortStep, hd, hcol, ha, List.length_insertionSort]

/-- C6: the page slice never exceeds the requested length, and its size is
exactly `min(length, recordsFiltered - start)` (truncated subtraction
clamping at zero). -/
theorem page_slice_length (records : List Record) (p : TableParams) :
    (queryTable records p).data.length ≤ p.length
    ∧ (queryTable records p).data.length
        = min p.length ((queryTable records p).recordsFiltered - p.start) := by
  constructor
  · simp [queryTable]
  · simp [queryTable, length_sortStep]

theorem sortStep_out_of_range (records : List Record) (idx : Nat)
    (dir? : Option String) (h : columns.length ≤ idx) :
    sortStep records (some idx) dir? = records := by
  have hcol : columns[idx]? = none := List.getElem?_eq_none h
  rcases dir? with _ | dir
  · rfl
  · by_cases hd : dir = "" <;> simp [sortStep, hd, hcol]

/-- C9: a sort column index outside the eleven-entry column list makes the
sort step a no-op — the result is the same as with no sort requested, and
the page is the slice of the filtered sequence in its original order
(no error: the pipeline is total). -/
theorem out_of_range_sort_index_skips_sort (records : List Record)
    (p : TableParams) (idx : Nat) (h1 : p.orderColumnIndex = some idx)
    (h2 : columns.length ≤ idx) :
    queryTable records p = queryTable records { p with orderColumnIndex := none }
    ∧ (queryTable records p).data
        = ((filterStep records p.searchValue).drop p.start).take p.length := by
  have hL : sortStep (filterStep records p.searchValue) p.orderColumnIndex p.orderDirection
      = filterStep records p.searchValue := by
    rw [h1]; exact sortStep_out_of_range _ _ _ h2
  have hR : sortStep (filterStep records p.searchValue) none p.orderDirection
      = filterStep records p.searchValue := by
    rcases p.orderDirection with _ | dir <;> rfl
  constructor
  · simp [queryTable, hL, hR]
  · simp [queryTable, hL]

/-- Witness for C9 at index 11 (one past the last column) on a two-record
snapshot. -/
theorem out_of_range_sort_index_skips_sort_witness :
    queryTable [[("NAME", .str "b")], [("NAME", .str "A")]]
        ⟨some "7", 0, 10, "", some 11, some "asc"⟩
      = queryTable [[("NAME", .str "b")], [("NAME", .str "A")]]
        ⟨some "7", 0, 10, "", none, some "asc"⟩ := by
  exact (out_of_range_sort_index_skips_sort
    [[("NAME", .str "b")], [("NAME", .str "A")]]
    ⟨some "7", 0, 10, "", some 11, some "asc"⟩ 11 rfl (by decide)).1

-- Stability of the sort -------------------------------------------------------

theorem filter_orderedInsert_of_pos {α : Type} (r : α → α → Prop) [DecidableRel r]
    (p : α → Bool) (x : α) (hx : p x = true)
    (hskip : ∀ b, ¬ r x b → p b = false) :
    ∀ l : List α, (List.orderedInsert r x l).filter p = x :: l.filter p
  | [] => by simp [List.orderedInsert, hx]
  | b :: l => by
      by_cases hr : r x b
      · simp [List.orderedInsert, hr, hx]
      · have hb := hskip b hr
        simp [List.orderedInsert, hr, hb,
          filter_orderedInsert_of_pos r p x hx hskip l]

theorem filter_orderedInsert_of_neg {α : Type} (r : α → α → Prop) [DecidableRel r]
    (p : α → Bool) (x : α) (hx : p x = false) :
    ∀ l : List α, (List.orderedInsert r x l).filter p = l.filter p
  | [] => by simp [List.orderedInsert, hx]
  | b :: l => by
      by_cases hr : r x b
      · simp [List.orderedInsert, hr, hx]
      · simp [List.orderedInsert, hr, List.filter_cons,
          filter_orderedInsert_of_neg r p x hx l]

/-- Stability of `insertionSort` with respect to a sort key: the records
carrying any fixed key value come out in their input order (as long as the
relation holds between equal-key elements, which both comparator
directions satisfy). -/
theorem filter_insertionSort_key {α : Type} (r : α → α → Prop) [DecidableRel r]
    (key : α → String) (hr : ∀ a b, key a = key b → r a b) (k : String) :
    ∀ l : List α, (List.insertionSort r l).filter (fun a => key a == k)
      = l.filter (fun a => key a == k)
  | [] => rfl
  | x :: l => by
      have ih := filter_insertionSort_key r key hr k l
      by_cases hx : key x = k
      · rw [List.insertionSort, filter_orderedInsert_of_pos r _ x (by simp [hx])
          (fun b hb => by
            simp only [beq_eq_false_iff_ne, ne_eq]
            intro hkb
            exact hb (hr x b (hx.trans hkb.symm))), ih, List.filter_cons]
        simp [hx]
      · rw [List.insertionSort, filter_orderedInsert_of_neg r _ x (by simp [hx]), ih,
          List.filter_cons]
        simp [hx]

/-- C7: with a valid column index and direction, `sortStep` orders records
by the named column's case-folded string value, missing values comparing
as `""`, and the sort is stable: records with equal sort keys keep their
original relative order.  The spec's example `[NAME "A", NAME "b"]`,
sorted by `NAME` ascending, stays `["A", "b"]`. -/
theorem sort_stable_case_folded (l : List Record) (idx : Nat)
    (h : idx < columns.length) (k : String) :
    List.Sorted (fun a b : Record =>
        sortKey (columns.get ⟨idx, h⟩) a ≤ sortKey (columns.get ⟨idx, h⟩) b)
      (sortStep l (some idx) (some "asc"))
    ∧ List.Sorted (fun a b : Record =>
        sortKey (columns.get ⟨idx, h⟩) b ≤ sortKey (columns.get ⟨idx, h⟩) a)
      (sortStep l (some idx) (some "desc"))
    ∧ (∀ dir : String, dir ≠ "" →
        (sortStep l (some idx) (some dir)).filter
            (fun r => sortKey (columns.get ⟨idx, h⟩) r == k)
          = l.filter (fun r => sortKey (columns.get ⟨idx, h⟩) r == k))
    ∧ (∀ r : Record, lookupField r (columns.get ⟨idx, h⟩) = none →
        sortKey (columns.get ⟨idx, h⟩) r = "")
    ∧ (queryTable
          [[("NAME", JsVal.str "A"), ("STATUS", JsVal.str "Active")],
           [("NAME", JsVal.str "b"), ("STATUS", JsVal.str "Active")]]
          ⟨none, 0, 10, "", some 2, some "asc"⟩).data
        = [[("NAME", JsVal.str "A"), ("STATUS", JsVal.str "Active")],
           [("NAME", JsVal.str "b"), ("STATUS", JsVal.str "Active")]] := by
  set col := columns.get ⟨idx, h⟩ with hcoldef
  have hcol : columns[idx]? = some col := by
    simp [List.getElem?_eq_getElem h, hcoldef, List.get_eq_getElem]
  have hiff : ∀ a b : Record, sortAsc col a b ↔ sortKey col a ≤ sortKey col b :=
    fun a b => Iff.symm String.le_iff_toList_le
  have hsort_asc : sortStep l (some idx) (some "asc")
      = List.insertionSort (sortAsc col) l := by
    simp [sortStep, hcol]
  have hsort_desc : sortStep l (some idx) (some "desc")
      = List.insertionSort (fun a b => sortAsc col b a) l := by
    simp [sortStep, hcol]
  refine ⟨?_, ?_, ?_, ?_, ?_⟩
  · rw [hsort_asc]
    haveI : IsTotal Record (sortAsc col) :=
      ⟨fun a b => (le_total (sortKey col a) (sortKey col b)).imp
        (hiff _ _).mpr (hiff _ _).mpr⟩
    haveI : IsTrans Record (sortAsc col) :=
      ⟨fun a b c h1 h2 => (hiff a c).mpr
        (le_trans ((hiff a b).mp h1) ((hiff b c).mp h2))⟩
    exact (List.sorted_insertionSort (sortAsc col) l).imp fun hab => (hiff _ _).mp hab
  · rw [hsort_desc]
    haveI : IsTotal Record (fun a b => sortAsc col b a) :=
      ⟨fun a b => (le_total (sortKey col b) (sortKey col a)).imp
        (hiff _ _).mpr (hiff _ _).mpr⟩
    haveI : IsTrans Record (fun a b => sortAsc col b a) :=
      ⟨fun a b c h1 h2 => (hiff c a).mpr
        (le_trans ((hiff c b).mp h2) ((hiff b a).mp h1))⟩
    exact (List.sorted_insertionSort (fun a b => sortAsc col b a) l).imp
      fun hab => (hiff _ _).mp hab
  · intro dir hdir
    by_cases ha : dir = "asc"
    · subst ha
      rw [hsort_asc]
      exact filter_insertionSort_key (sortAsc col) (sortKey col)
        (fun a b hab => (hiff a b).mpr (le_of_eq hab)) k l
    · have hsd : sortStep l (some idx) (some dir)
          = List.insertionSort (fun a b => sortAsc col b a) l := by
        simp [sortStep, hdir, hcol, ha]
      rw [hsd]
      exact filter_insertionSort_key (fun a b => sortAsc col b a) (sortKey col)
        (fun a b hab => (hiff b a).mpr (le_of_eq hab.symm)) k l
  · intro r hr
    simp only [sortKey, hr]
    decide
  · decide

/-- Witness for C7: the spec's concrete example, records named "A" and "b"
sorted by `NAME` (column index 2) ascending keep their order. -/
theorem sort_stable_case_folded_witness :
    (queryTable
        [[("NAME", JsVal.str "A"), ("STATUS", JsVal.str "Active")],
         [("NAME", JsVal.str "b"), ("STATUS", JsVal.str "Active")]]
        ⟨none, 0, 10, "", some 2, some "asc"⟩).data
      = [[("NAME", JsVal.str "A"), ("STATUS", JsVal.str "Active")],
         [("NAME", JsVal.str "b"), ("STATUS", JsVal.str "Active")]] :=
  (sort_stable_case_folded [] 2 (by decide) "a").2.2.2.2

/-- C10: in the global filter, a `null` field participates through its
string rendering `"null"` (worker.js line 223 applies `String(value)` to
every field value): the record `{NAME: "Alice", COUNTY: null}` is kept by
search value `"null"`, although no field's actual string text contains
`"null"` (checked by the third conjunct over every field of the record). -/
theorem null_field_matches_search :
    (queryTable [[("NAME", JsVal.str "Alice"), ("COUNTY", JsVal.null)]]
        ⟨none, 0, 10, "null", none, none⟩).recordsFiltered = 1
    ∧ (queryTable [[("NAME", JsVal.str "Alice"), ("COUNTY", JsVal.null)]]
        ⟨none, 0, 10, "null", none, none⟩).data
      = [[("NAME", JsVal.str "Alice"), ("COUNTY", JsVal.null)]]
    ∧ ([("NAME", JsVal.str "Alice"), ("COUNTY", JsVal.null)].all fun f =>
        match f.2 with
        | .str s => !(strIncludes (lowerStr s) (lowerStr "null"))
        | .null => true) = true := by
  refine ⟨?_, ?_, ?_⟩ <;> decide

-- Router and handlers ---------------------------------------------------------

/-- A thrown JS error, as it surfaces from the worker's async functions:
the `ReferenceError` raised by evaluating an unbound identifier, or the
`Error` thrown by `fetchFromNocoDB` on a non-2xx upstream response or a
transport failure. -/
inductive JsError where
  | referenceError (msg : String)
  | fetchFailed (msg : String)
deriving DecidableEq, Repr

/-- A JSON response body produced by the API layer. -/
inductive ApiBody where
  | records (l : List Record)
  | summary (s : Summary)
  | trends (t : MonthlyData)
  | envelope (e : Envelope)
  | errorEnvelope (error : String) (details : Option String)
  | empty
deriving DecidableEq

/-- An HTTP response from the API layer (status and JSON body; the constant
CORS/content-type headers of worker.js lines 55-61 are attached to every
response and carry no information, so they are not modelled). -/
structure ApiResponse where
  status : Nat
  body : ApiBody
deriving DecidableEq

/-- Handler `fetchAllCertifications` (worker.js lines 110-113): returns the upstream
snapshot as-is; an upstream failure propagates as a rejection. -/
def fetchAllCertifications (upstream : Except JsError (List Record)) :
    Except JsError ApiResponse :=
  upstream.map fun l => ⟨200, .records l⟩

/-- Endpoint `getCertificationsSummary` as a handler (worker.js lines 115-136). -/
def summaryHandler (upstream : Except JsError (List Record)) :
    Except JsError ApiResponse :=
  upstream.map fun l => ⟨200, .summary (summarize l)⟩

/-- Endpoint `getMonthlyTrends` as a handler (worker.js lines 138-200). -/
def trendsHandler (now : String) (upstream : Except JsError (List Record)) :
    Except JsError ApiResponse :=
  upstream.map fun l => ⟨200, .trends (getMonthlyTrends now l)⟩

/-- Handler `getTableData` (worker.js lines 202-260).  Its first statement,
`new URLSearchParams(url.search)`, reads the identifier `url`, which is
bound neither in the function nor at module scope (module scope holds only
the table-id constant and the other functions); evaluation therefore
throws a `ReferenceError` before the parameters are read or the upstream
fetch is issued, regardless of the request.  The query pipeline the
function was meant to run on its data is `queryTable` above. -/
def getTableData (_upstream : Except JsError (List Record)) (_p : TableParams) :
    Except JsError ApiResponse :=
  .error (.referenceError "url is not defined")

/-- The router `handleApiRequest` (worker.js lines 54-85).  An `OPTIONS`
request is answered directly; otherwise the path dispatches to a handler.
Each `case` does `return handler(...)` WITHOUT `await` inside the
`try`/`catch`: the handlers are async, so a failure in one of them is a
rejected promise that the router returns as-is — the `catch` block (which
would convert an error into a 500 `{error, details}` envelope) can only
intercept synchronous throws, and no statement in the `try` throws
synchronously.  Handler rejections therefore escape the router, which this
embedding renders by propagating the handler's `Except` unchanged. -/
def handleApiRequest (method path : String) (now : String)
    (upstream : Except JsError (List Record)) (p : TableParams) :
    Except JsError ApiResponse :=
  if method = "OPTIONS" then .ok ⟨200, .empty⟩
  else
    match path with
    | "/api/certifications" => fetchAllCertifications upstream
    | "/api/summary" => summaryHandler upstream
    | "/api/monthly-trends" => trendsHandler now upstream
    | "/api/table-data" => getTableData upstream p
    | _ => .ok ⟨404, .errorEnvelope "API endpoint not found" none⟩

/-- C2 (code bug): a `GET /api/table-data` request never yields the paging
envelope — `getTableData` throws `ReferenceError: url is not defined` on
its first statement, even with a healthy upstream snapshot and
well-formed parameters; `queryTable` shows what the envelope would have
been had the handler reached its pipeline. -/
theorem table_data_handler_throws :
    getTableData (.ok [[("NAME", JsVal.str "Alice")]])
        ⟨some "1", 0, 10, "", none, none⟩
      = .error (.referenceError "url is not defined")
    ∧ (∀ upstream p, getTableData upstream p
        = .error (.referenceError "url is not defined"))
    ∧ (queryTable [[("NAME", JsVal.str "Alice")]]
        ⟨some "1", 0, 10, "", none, none⟩).draw = some "1" := by
  exact ⟨rfl, fun _ _ => rfl, rfl⟩

/-- C3 (code bug): errors raised inside the async handlers are NOT
converted to an HTTP 500 `{error, details}` envelope at the router
boundary: the `ReferenceError` of the table-data handler, and an upstream
fetch failure in the summary handler, both escape `handleApiRequest` as
rejections instead of becoming `.ok` responses. -/
theorem router_lets_handler_errors_escape :
    handleApiRequest "GET" "/api/table-data" "2024-06-15" (.ok [])
        ⟨none, 0, 10, "", none, none⟩
      = .error (.referenceError "url is not defined")
    ∧ handleApiRequest "GET" "/api/summary" "2024-06-15"
        (.error (.fetchFailed "Failed to fetch from NocoDB: 500 - Internal Server Error - "))
        ⟨none, 0, 10, "", none, none⟩
      = .error (.fetchFailed "Failed to fetch from NocoDB: 500 - Internal Server Error - ") := by
  exact ⟨rfl, rfl⟩
